import Mathlib

/-!
# Modules field controller (`results_marksheet_modules.js`)

A shallow embedding of the browser script that shows, fills and resets the
"modules" selection control of the marksheet form.

* JavaScript values that can reach the script (a parsed JSON body, plus
  `undefined` for a property that is not there) are the type `JSVal`.
* The page is the record `State`: the values of the two selectors, the class
  list of `#modules-field`, the `disabled` flag and the option children of
  `#modules-select`, and the script global `allModules`.  The four elements the
  script looks up by identifier are taken to exist.
* An `async` function is split at its `await`: the part that runs
  synchronously (`updateStart`) and the part that runs once the awaited
  promise has settled (`updateResume`).  `updateModulesField` is one run with
  nothing in between; `step` interleaves the parts of several runs.  Between the
  arrival of a response and the end of `resp.json()` a run changes nothing on
  the page, so the settling of a fetch is one turn.
* An exception is a value of `JSError`; a function that can throw returns
  `Except JSError _`, and a run records the page it leaves behind together
  with the exception, if any.
-/

namespace Emis

/-! ## JavaScript values -/

/-- A JavaScript number.  Floating point is not modelled: a number is kept as the
two observations the script can make of it, whether it is falsy (`0`, `-0`,
`NaN`) and the text `Number::toString` gives for it. -/
structure JSNum where
  isFalsy : Bool
  text : String
  deriving DecidableEq, Repr

/-- Values of the language that the script can meet: the results of `JSON.parse`
and `undefined`.  An object is the list of its own properties. -/
inductive JSVal where
  | undefined : JSVal
  | null : JSVal
  | bool (b : Bool) : JSVal
  | num (n : JSNum) : JSVal
  | str (s : String) : JSVal
  | arr (items : List JSVal) : JSVal
  | obj (props : List (String × JSVal)) : JSVal
  deriving Repr

/-- Exceptions the script can meet. -/
inductive JSError where
  | typeError : JSError
  | parseError : JSError
  | networkError : JSError
  deriving DecidableEq, Repr

/-- The property names the script reads: `data.modules`, `mod.id`, `mod.code`,
`mod.name`.  None of them is defined on a built-in prototype. -/
inductive Key where
  | modules : Key
  | id : Key
  | code : Key
  | name : Key
  deriving DecidableEq, Repr

/-- The text of a property name. -/
def Key.text : Key → String
  | .modules => "modules"
  | .id => "id"
  | .code => "code"
  | .name => "name"

/-- Own property lookup in an object. -/
def lookupProp (k : String) : List (String × JSVal) → Option JSVal
  | [] => none
  | (k', v) :: rest => if k' = k then some v else lookupProp k rest

/-- Whether an object has an own property of that name. -/
def hasOwn (k : String) (props : List (String × JSVal)) : Bool :=
  (lookupProp k props).isSome

/-- The conversion `ToBoolean`, as used by `!occupationId`, `data && ...` and
`&& occId`. -/
def truthy : JSVal → Bool
  | .undefined => false
  | .null => false
  | .bool b => b
  | .num n => !n.isFalsy
  | .str s => !(s = "")
  | .arr _ => true
  | .obj _ => true

/-- The property read `v.k` for one of the script's property names: a `TypeError`
on `null` and `undefined`, the own property of an object, and `undefined`
everywhere else (primitives and arrays inherit no such property). -/
def getProp (v : JSVal) (k : Key) : Except JSError JSVal :=
  match v with
  | .undefined => .error .typeError
  | .null => .error .typeError
  | .obj props =>
    match lookupProp k.text props with
    | some w => .ok w
    | none => .ok .undefined
  | _ => .ok .undefined

/-- The test `Array.isArray`. -/
def isArray : JSVal → Bool
  | .arr _ => true
  | _ => false

mutual
/-- The conversion `ToString`, as performed by a template literal and by the
`value` setter of an option element.  An array is joined with commas
(`joinItems`); a plain object gives `[object Object]`, unless it has an own
`toString` property: that property is JSON data, not callable, the inherited
`valueOf` returns the object itself, and the conversion throws a `TypeError`. -/
def toStr : JSVal → Except JSError String
  | .undefined => .ok "undefined"
  | .null => .ok "null"
  | .bool true => .ok "true"
  | .bool false => .ok "false"
  | .num n => .ok n.text
  | .str s => .ok s
  | .arr items => joinItems items
  | .obj props => if hasOwn "toString" props then .error .typeError else .ok "[object Object]"
termination_by structural v => v
/-- The function `Array.prototype.join` with the separator `","`: `null` and
`undefined` entries give the empty text, every other entry its `ToString`. -/
def joinItems : List JSVal → Except JSError String
  | [] => .ok ""
  | x :: rest =>
    match (match x with
      | JSVal.undefined => Except.ok ""
      | JSVal.null => Except.ok ""
      | v => toStr v : Except JSError String) with
    | .error e => .error e
    | .ok a =>
      match rest with
      | [] => .ok a
      | _ :: _ =>
        match joinItems rest with
        | .error e => .error e
        | .ok b => .ok (a ++ "," ++ b)
termination_by structural l => l
end

/-! ## The network -/

/-- What one call of `fetch` can end in: the promise rejects (network failure),
or it resolves to a response with a status code whose body is JSON text
(`some data`, what `resp.json()` resolves to) or is not (`none`, `resp.json()`
rejects). -/
inductive FetchOutcome where
  | networkFailure : FetchOutcome
  | response (status : Nat) (body : Option JSVal) : FetchOutcome
  deriving Repr

/-- The flag `resp.ok`: the status is in the range 200 to 299. -/
def respOk (status : Nat) : Bool :=
  decide (200 ≤ status) && decide (status ≤ 299)

/-- The network as the script sees it: the outcome of a request to a URL. -/
abbrev Network := String → FetchOutcome

/-- The URL of line 9 for an identifier already converted to text. -/
def modulesUrl (occupationId : String) : String :=
  "/eims/api/modules/?occupation_id=" ++ occupationId

/-- The requests a call has issued and what the call returned or threw. -/
structure FetchRun where
  requests : List String
  result : Except JSError (List JSVal)

/-- Lines 10 to 15, the rest of the `try` block once `fetch` has settled:
`some modules` when line 13 returns, `none` when control falls out of the block,
an error when an awaited promise rejects or a property read throws. -/
def afterFetch : FetchOutcome → Except JSError (Option (List JSVal))
  | .networkFailure => .error .networkError
  | .response status body =>
    if respOk status then
      match body with
      | none => .error .parseError
      | some data =>
        if truthy data then
          match getProp data .modules with
          | .error e => .error e
          | .ok (.arr items) => .ok (some items)
          | .ok _ => .ok none
        else .ok none
    else .ok none

/-- Where the synchronous part of `fetchModulesForOccupation` ends: the function
has returned, or it has issued a request and waits for it. -/
inductive FetchStart where
  | returned (modules : List JSVal) : FetchStart
  | requested (url : String) : FetchStart
  deriving Repr

/-- Lines 7 to 9, up to the first `await`.  The template literal of line 9 is
inside the `try` block: when the conversion to text throws, the empty `catch`
takes over and line 17 returns the empty list, with no request made. -/
def fetchStart (occupationId : JSVal) : FetchStart :=
  if !truthy occupationId then .returned []
  else
    match toStr occupationId with
    | .error _ => .returned []
    | .ok idText => .requested (modulesUrl idText)

/-- Lines 10 to 17 once `fetch` has settled: the rest of the `try` block, the
empty `catch`, and the final `return []`. -/
def fetchResume (outcome : FetchOutcome) : Except JSError (List JSVal) :=
  match afterFetch outcome with
  | .ok (some modules) => .ok modules
  | .ok none => .ok []
  | .error _ => .ok []

/-- The function `fetchModulesForOccupation` (lines 5 to 18). -/
def fetchModulesForOccupation (net : Network) (occupationId : JSVal) : FetchRun :=
  match fetchStart occupationId with
  | .returned modules => ⟨[], .ok modules⟩
  | .requested url => ⟨[url], fetchResume (net url)⟩

/-! ## The page -/

/-- An `option` element, as far as the script sets it. -/
structure OptionEl where
  value : String
  disabled : Bool
  textContent : String
  deriving DecidableEq, Repr

/-- The page and the script global. -/
structure State where
  /-- The value of `#reg-category-select`. -/
  regcat : String
  /-- The value of `#occupation-select`. -/
  occId : String
  /-- The class list of `#modules-field`. -/
  wrapperClasses : List String
  /-- The `disabled` flag of `#modules-select`. -/
  selectDisabled : Bool
  /-- The children of `#modules-select`. -/
  options : List OptionEl
  /-- The script global `allModules`. -/
  allModules : List JSVal

/-- The method `classList.add`. -/
def classListAdd (token : String) (classes : List String) : List String :=
  if token ∈ classes then classes else classes ++ [token]

/-- The method `classList.remove`. -/
def classListRemove (token : String) (classes : List String) : List String :=
  classes.filter (fun c => !(c = token))

/-- The field is hidden: the class list of `#modules-field` holds `hidden`. -/
def State.hidden (p : State) : Bool :=
  decide ("hidden" ∈ p.wrapperClasses)

/-- The element that `<option value="" disabled>Select modules...</option>`
parses to (line 29). -/
def placeholder : OptionEl :=
  ⟨"", true, "Select modules..."⟩

/-! ## `updateModulesField` -/

/-- Lines 21 to 29 and 38 to 41, the part of `updateModulesField` that runs before
the `await`: the new page, and the occupation whose modules the run now waits
for (`none` when the run took the `else` branch and is over). -/
def updateStart (p : State) : State × Option String :=
  let regcat := p.regcat
  let occId := p.occId
  let p1 := { p with options := [] }
  if regcat = "modular" ∧ truthy (.str occId) = true then
    ({ p1 with
        wrapperClasses := classListRemove "hidden" p1.wrapperClasses
        selectDisabled := false
        options := [placeholder] }, some occId)
  else
    ({ p1 with
        wrapperClasses := classListAdd "hidden" p1.wrapperClasses
        selectDisabled := true }, none)

/-- Lines 33 to 36, the body of the `forEach` callback for one entry. -/
def appendModule (p : State) (mod : JSVal) : Except JSError State :=
  match getProp mod .id with
  | .error e => .error e
  | .ok idVal =>
    match toStr idVal with
    | .error e => .error e
    | .ok value =>
      match getProp mod .code with
      | .error e => .error e
      | .ok codeVal =>
        match toStr codeVal with
        | .error e => .error e
        | .ok code =>
          match getProp mod .name with
          | .error e => .error e
          | .ok nameVal =>
            match toStr nameVal with
            | .error e => .error e
            | .ok name =>
              .ok { p with options := p.options ++ [⟨value, false, code ++ " - " ++ name⟩] }

/-- Lines 32 to 37, the `forEach` loop: the page it leaves, and the exception that
ended it early, if any. -/
def forEachModule : List JSVal → State → State × Option JSError
  | [], p => (p, none)
  | mod :: rest, p =>
    match appendModule p mod with
    | .error e => (p, some e)
    | .ok p' => forEachModule rest p'

/-- Lines 31 to 37, the part of `updateModulesField` that runs after the `await`
with the value the fetch returned. -/
def updateResume (modules : List JSVal) (p : State) : State × Option JSError :=
  forEachModule modules { p with allModules := modules }

/-- What one run leaves: the page, the requests issued, the exception if any. -/
structure RunResult where
  state : State
  requests : List String
  thrown : Option JSError

/-- The function `updateModulesField` (lines 20 to 42), run with nothing else
happening during the `await`. -/
def updateModulesField (net : Network) (p : State) : RunResult :=
  match updateStart p with
  | (p1, none) => ⟨p1, [], none⟩
  | (p1, some occId) =>
    let call := fetchModulesForOccupation net (.str occId)
    match call.result with
    | .error e => ⟨p1, call.requests, some e⟩
    | .ok modules =>
      let done := updateResume modules p1
      ⟨done.1, call.requests, done.2⟩

/-- The click handler of `openBtn` (lines 55 to 63); both elements exist, so the
guard of line 58 holds. -/
def openBtnClick (p : State) : State :=
  { p with
      wrapperClasses := classListAdd "hidden" p.wrapperClasses
      options := []
      selectDisabled := true }

/-! ## Interleaved runs -/

/-- The page together with the updates that are suspended at their `await`, each
given by the URL it has requested, oldest first. -/
structure Sys where
  page : State
  pending : List String

/-- What can happen next: the user sets the two selectors; a `change` event
starts `updateModulesField`; the fetch of the pending update number `i` settles
and that update runs to its end; the open trigger is clicked. -/
inductive Action where
  | select (regcat occId : String) : Action
  | change : Action
  | settle (i : Nat) (outcome : FetchOutcome) : Action
  | openClick : Action
  deriving Repr

/-- One event-loop turn.  `none` when the action is not possible (no pending
update number `i`).  An exception that ends the resumed part leaves the page as
it is at that point. -/
def step (s : Sys) : Action → Option Sys
  | .select regcat occId =>
    some { s with page := { s.page with regcat := regcat, occId := occId } }
  | .change =>
    match updateStart s.page with
    | (p1, none) => some { s with page := p1 }
    | (p1, some occId) =>
      match fetchStart (.str occId) with
      | .returned modules => some { s with page := (updateResume modules p1).1 }
      | .requested url => some ⟨p1, s.pending ++ [url]⟩
  | .settle i outcome =>
    match s.pending.get? i with
    | none => none
    | some _ =>
      match fetchResume outcome with
      | .error _ => some ⟨s.page, s.pending.eraseIdx i⟩
      | .ok modules => some ⟨(updateResume modules s.page).1, s.pending.eraseIdx i⟩
  | .openClick => some { s with page := openBtnClick s.page }

/-- A sequence of turns. -/
def runActions : Sys → List Action → Option Sys
  | s, [] => some s
  | s, a :: rest =>
    match step s a with
    | none => none
    | some s' => runActions s' rest

/-- Whether every fetch that settles along the run settles while the field is
not hidden. -/
def settlesWhileVisible : Sys → List Action → Bool
  | _, [] => true
  | s, a :: rest =>
    (match a with
      | .settle _ _ => !s.page.hidden
      | _ => true) &&
    (match step s a with
      | none => true
      | some s' => settlesWhileVisible s' rest)

/-! ## The words of the specification -/

/-- An identifier as it arrives in a JSON body: a text or a number. -/
inductive Ident where
  | text (s : String) : Ident
  | number (n : JSNum) : Ident
  deriving DecidableEq, Repr

/-- The JSON value of an identifier. -/
def Ident.toJS : Ident → JSVal
  | .text s => .str s
  | .number n => .num n

/-- The text of an identifier, which is what the `value` of an option holds. -/
def Ident.shown : Ident → String
  | .text s => s
  | .number n => n.text

/-- A module as the specification describes it: an identifier, a code and a
name. -/
structure Module where
  id : Ident
  code : String
  name : String
  deriving DecidableEq, Repr

/-- The JSON object of a module. -/
def Module.toJS (m : Module) : JSVal :=
  .obj [("id", m.id.toJS), ("code", .str m.code), ("name", .str m.name)]

/-- The option of a module: its identifier as value, `<code> - <name>` as label. -/
def Module.option (m : Module) : OptionEl :=
  ⟨m.id.shown, false, m.code ++ " - " ++ m.name⟩

/-- The `modules` field of a body when it is present and is a sequence. -/
def specModulesOf : JSVal → Option (List JSVal)
  | .obj props =>
    match lookupProp "modules" props with
    | some (.arr items) => some items
    | _ => none
  | _ => none

/-- A response status that indicates success. -/
def specSuccess (status : Nat) : Bool :=
  decide (200 ≤ status ∧ status ≤ 299)

/-- The list the specification assigns to an outcome of the request: the
`modules` field of the body when the response indicates success, the body parses
and the field is present and is a sequence, the empty list in every other
case. -/
def specFetched : FetchOutcome → List JSVal
  | .networkFailure => []
  | .response _ none => []
  | .response status (some data) =>
    if specSuccess status = true then
      match specModulesOf data with
      | some items => items
      | none => []
    else []

/-- The fetch operation in the words of the specification, for an identifier
that is absent (`none`) or a text: no request and the empty list for an absent or
empty identifier; otherwise one request to the endpoint and the list
`specFetched` of its outcome. -/
def fetchModulesSpec (net : Network) (occupationId : Option String) : FetchRun :=
  match occupationId with
  | none => ⟨[], .ok []⟩
  | some id =>
    if id = "" then ⟨[], .ok []⟩
    else
      ⟨["/eims/api/modules/?occupation_id=" ++ id],
        .ok (specFetched (net ("/eims/api/modules/?occupation_id=" ++ id)))⟩

/-- The four failures of the specification: network failure, a response status
outside 200 to 299, a body that does not parse, a body whose `modules` field is
missing or not a sequence. -/
def fetchFails : FetchOutcome → Bool
  | .networkFailure => true
  | .response _ none => true
  | .response status (some data) => !specSuccess status || (specModulesOf data).isNone

/-! ## Sample pages and responses -/

/-- A page with the selectors on `modular` and occupation `7`, the field hidden
and disabled, one option left over in the select and a stale module list. -/
def samplePage : State :=
  ⟨"modular", "7", ["field", "hidden"], true, [⟨"old", false, "Old"⟩], [.str "stale"]⟩

/-- The module of the specification's example. -/
def sampleModule : Module :=
  ⟨.text "1", "A", "Foo"⟩

/-- The body `{modules:[{id:"1",code:"A",name:"Foo"}]}`. -/
def sampleBody : JSVal :=
  .obj [("modules", .arr [sampleModule.toJS])]

/-- A network that answers every request with status 200 and `sampleBody`. -/
def sampleNet : Network :=
  fun _ => .response 200 (some sampleBody)

/-- A network that answers every request with status 500. -/
def failingNet : Network :=
  fun _ => .response 500 none

/-- A network on which every request fails. -/
def deadNet : Network :=
  fun _ => .networkFailure

/-- A network that answers with status 200 and the body `{modules:[null]}`. -/
def nullEntryNet : Network :=
  fun _ => .response 200 (some (.obj [("modules", .arr [.null])]))

/-- A second module, with a number as identifier. -/
def otherModule : Module :=
  ⟨.number ⟨false, "2"⟩, "B", "Bar"⟩

/-- A successful response whose body lists the given modules. -/
def modulesResponse (ms : List Module) : FetchOutcome :=
  .response 200 (some (.obj [("modules", .arr (ms.map Module.toJS))]))

/-- A page with the selectors on `modular` and occupation `7` and the field
hidden, disabled and empty. -/
def blankPage : State :=
  ⟨"modular", "7", ["field", "hidden"], true, [], []⟩

/-! ## Lemmas on the pieces -/

theorem truthy_str_iff (s : String) : truthy (.str s) = true ↔ s ≠ "" := by
  simp [truthy]

theorem fetchStart_str (s : String) (h : s ≠ "") :
    fetchStart (.str s) = .requested (modulesUrl s) := by
  simp [fetchStart, truthy, toStr, h]

theorem fetchStart_str_empty : fetchStart (.str "") = .returned [] := by
  simp [fetchStart, truthy]

theorem fetchResume_ok (outcome : FetchOutcome) :
    ∃ modules, fetchResume outcome = .ok modules := by
  unfold fetchResume
  split <;> exact ⟨_, rfl⟩

theorem mem_classListAdd (token : String) (classes : List String) :
    token ∈ classListAdd token classes := by
  unfold classListAdd
  split <;> simp [*]

theorem not_mem_classListRemove (token : String) (classes : List String) :
    token ∉ classListRemove token classes := by
  simp [classListRemove]

theorem updateStart_modular (p : State) (hcat : p.regcat = "modular") (hocc : p.occId ≠ "") :
    updateStart p =
      ({ p with
          wrapperClasses := classListRemove "hidden" p.wrapperClasses
          selectDisabled := false
          options := [placeholder] }, some p.occId) := by
  simp [updateStart, truthy, hcat, hocc]

theorem updateStart_else (p : State) (h : p.regcat ≠ "modular" ∨ p.occId = "") :
    updateStart p =
      ({ p with
          wrapperClasses := classListAdd "hidden" p.wrapperClasses
          selectDisabled := true
          options := [] }, none) := by
  have hc : ¬ (p.regcat = "modular" ∧ truthy (.str p.occId) = true) := by
    rw [truthy_str_iff]
    rintro ⟨h1, h2⟩
    rcases h with h | h
    · exact h h1
    · exact h2 h
  simp only [updateStart, hc, if_false]

theorem appendModule_toJS (p : State) (m : Module) :
    appendModule p m.toJS = .ok { p with options := p.options ++ [m.option] } := by
  cases hid : m.id <;>
    simp [appendModule, Module.toJS, Module.option, getProp, lookupProp, Key.text, toStr,
      Ident.toJS, Ident.shown, hid]

theorem forEachModule_toJS (ms : List Module) (p : State) :
    forEachModule (ms.map Module.toJS) p =
      ({ p with options := p.options ++ ms.map Module.option }, none) := by
  induction ms generalizing p with
  | nil => simp [forEachModule]
  | cons m rest ih =>
    simp only [List.map_cons, forEachModule, appendModule_toJS, ih]
    simp

theorem forEachModule_frame (modules : List JSVal) (p : State) :
    (forEachModule modules p).1.wrapperClasses = p.wrapperClasses ∧
    (forEachModule modules p).1.selectDisabled = p.selectDisabled ∧
    (forEachModule modules p).1.regcat = p.regcat ∧
    (forEachModule modules p).1.occId = p.occId ∧
    (forEachModule modules p).1.allModules = p.allModules ∧
    ∃ added, (forEachModule modules p).1.options = p.options ++ added := by
  induction modules generalizing p with
  | nil => exact ⟨rfl, rfl, rfl, rfl, rfl, [], by simp [forEachModule]⟩
  | cons m rest ih =>
    unfold forEachModule
    cases hm : appendModule p m with
    | error e => exact ⟨rfl, rfl, rfl, rfl, rfl, [], by simp⟩
    | ok p' =>
      have hp' : p'.wrapperClasses = p.wrapperClasses ∧ p'.selectDisabled = p.selectDisabled ∧
          p'.regcat = p.regcat ∧ p'.occId = p.occId ∧ p'.allModules = p.allModules ∧
          ∃ o, p'.options = p.options ++ [o] := by
        unfold appendModule at hm
        repeat (split at hm; · exact absurd hm (by simp))
        injection hm with hm
        subst hm
        exact ⟨rfl, rfl, rfl, rfl, rfl, _, rfl⟩
      obtain ⟨h1, h2, h3, h4, h5, o, h6⟩ := hp'
      obtain ⟨i1, i2, i3, i4, i5, added, i6⟩ := ih p'
      refine ⟨i1.trans h1, i2.trans h2, i3.trans h3, i4.trans h4, i5.trans h5, o :: added, ?_⟩
      simp [i6, h6]

theorem fetchResume_eq_spec (outcome : FetchOutcome) :
    fetchResume outcome = .ok (specFetched outcome) := by
  cases outcome with
  | networkFailure => rfl
  | response status body =>
    cases body with
    | none =>
      by_cases hs : respOk status = true <;>
        simp [fetchResume, afterFetch, specFetched, hs]
    | some data =>
      have hss : specSuccess status = respOk status := by
        simp [specSuccess, respOk]
      by_cases hs : respOk status = true
      · cases data with
        | obj props =>
          simp only [fetchResume, afterFetch, specFetched, hss, hs, if_true, truthy,
            getProp, Key.text, specModulesOf]
          cases hl : lookupProp "modules" props with
          | none => rfl
          | some w => cases w <;> rfl
        | num n => cases hn : n.isFalsy <;>
            simp [fetchResume, afterFetch, specFetched, hss, hs, truthy, getProp, specModulesOf, hn]
        | str t => by_cases ht : t = "" <;>
            simp [fetchResume, afterFetch, specFetched, hss, hs, truthy, getProp, specModulesOf, ht]
        | bool b => cases b <;>
            simp [fetchResume, afterFetch, specFetched, hss, hs, truthy, getProp, specModulesOf]
        | _ => simp [fetchResume, afterFetch, specFetched, hss, hs, truthy, getProp, specModulesOf]
      · simp [fetchResume, afterFetch, specFetched, hss, hs]

theorem specFetched_of_fails (outcome : FetchOutcome) (h : fetchFails outcome = true) :
    specFetched outcome = [] := by
  cases outcome with
  | networkFailure => rfl
  | response status body =>
    cases body with
    | none => rfl
    | some data =>
      simp only [fetchFails, Bool.or_eq_true, Bool.not_eq_true', Option.isNone_iff_eq_none] at h
      rcases h with h | h <;> simp [specFetched, h]

theorem fetch_str (net : Network) (s : String) (h : s ≠ "") :
    fetchModulesForOccupation net (.str s) =
      ⟨[modulesUrl s], .ok (specFetched (net (modulesUrl s)))⟩ := by
  simp [fetchModulesForOccupation, fetchStart_str s h, fetchResume_eq_spec]

theorem updateModulesField_modular (net : Network) (p : State)
    (hcat : p.regcat = "modular") (hocc : p.occId ≠ "") :
    updateModulesField net p =
      ⟨(updateResume (specFetched (net (modulesUrl p.occId)))
          { p with
            wrapperClasses := classListRemove "hidden" p.wrapperClasses
            selectDisabled := false
            options := [placeholder] }).1,
        [modulesUrl p.occId],
        (updateResume (specFetched (net (modulesUrl p.occId)))
          { p with
            wrapperClasses := classListRemove "hidden" p.wrapperClasses
            selectDisabled := false
            options := [placeholder] }).2⟩ := by
  simp [updateModulesField, updateStart_modular p hcat hocc, fetch_str net p.occId hocc]

/-! ## One run of `updateModulesField` -/

/-- C1: with category `modular` and a non-empty occupation, a run whose fetch
returns the modules `ms` ends with the field not hidden, the select enabled, and
the options being the placeholder followed by one option per module (value the
identifier, label `<code> - <name>`), in the order received, duplicates kept,
whatever the select held before; `allModules` is the returned list. -/
theorem C1_modular_run_lists_modules (net : Network) (p : State) (ms : List Module)
    (hcat : p.regcat = "modular") (hocc : p.occId ≠ "")
    (hfetch : (fetchModulesForOccupation net (.str p.occId)).result = .ok (ms.map Module.toJS)) :
    (updateModulesField net p).state.hidden = false ∧
    (updateModulesField net p).state.selectDisabled = false ∧
    (updateModulesField net p).state.options = placeholder :: ms.map Module.option ∧
    (updateModulesField net p).state.options.length = ms.length + 1 ∧
    (updateModulesField net p).state.allModules = ms.map Module.toJS ∧
    (updateModulesField net p).thrown = none := by
  have hf : specFetched (net (modulesUrl p.occId)) = ms.map Module.toJS := by
    rw [fetch_str net p.occId hocc] at hfetch
    exact Except.ok.inj hfetch
  rw [updateModulesField_modular net p hcat hocc, hf]
  simp [updateResume, forEachModule_toJS, State.hidden, not_mem_classListRemove]

/-- C1, on the specification's example: the response
`{modules:[{id:"1",code:"A",name:"Foo"}]}` gives the placeholder and exactly one
more option, value `1`, label `A - Foo`. -/
theorem C1_modular_run_lists_modules_witness :
    samplePage.regcat = "modular" ∧ samplePage.occId ≠ "" ∧
    (fetchModulesForOccupation sampleNet (.str samplePage.occId)).result =
      .ok ([sampleModule].map Module.toJS) ∧
    (updateModulesField sampleNet samplePage).state.options =
      [placeholder, ⟨"1", false, "A - Foo"⟩] :=
  ⟨rfl, by decide, rfl,
    (C1_modular_run_lists_modules sampleNet samplePage [sampleModule] rfl (by decide) rfl).2.2.1⟩

/-- C2: `fetchModulesForOccupation` equals the reference definition
`fetchModulesSpec` for every identifier that is a text, `null` or `undefined` and
every network: no request and the empty list for an empty or absent identifier,
otherwise one request to the endpoint and the `modules` field of a successful,
parsed, well-shaped response, the empty list in every other outcome; and for
every value of the identifier the call returns, it does not throw. -/
theorem C2_fetch_refines_spec (net : Network) :
    (∀ s : String, fetchModulesForOccupation net (.str s) = fetchModulesSpec net (some s)) ∧
    fetchModulesForOccupation net .null = fetchModulesSpec net none ∧
    fetchModulesForOccupation net .undefined = fetchModulesSpec net none ∧
    (∀ v : JSVal, ∃ modules, (fetchModulesForOccupation net v).result = .ok modules) := by
  refine ⟨?_, rfl, rfl, ?_⟩
  · intro s
    by_cases h : s = ""
    · subst h
      rfl
    · rw [fetch_str net s h]
      simp [fetchModulesSpec, h, modulesUrl]
  · intro v
    unfold fetchModulesForOccupation
    split
    · exact ⟨_, rfl⟩
    · exact fetchResume_ok _

/-- C3: for a category other than `modular`, or an empty occupation, a run ends
with the field hidden, the select disabled and without options, makes no
request, and leaves `allModules` as it was. -/
theorem C3_other_selection_hides_field (net : Network) (p : State)
    (h : p.regcat ≠ "modular" ∨ p.occId = "") :
    (updateModulesField net p).state.hidden = true ∧
    (updateModulesField net p).state.selectDisabled = true ∧
    (updateModulesField net p).state.options = [] ∧
    (updateModulesField net p).requests = [] ∧
    (updateModulesField net p).state.allModules = p.allModules ∧
    (updateModulesField net p).thrown = none := by
  simp [updateModulesField, updateStart_else p h, State.hidden, mem_classListAdd]

/-- C3, on a page whose category is `full` while an occupation is selected. -/
theorem C3_other_selection_hides_field_witness :
    ({ samplePage with regcat := "full" } : State).regcat ≠ "modular" ∧
    (updateModulesField sampleNet { samplePage with regcat := "full" }).state.options = [] ∧
    (updateModulesField sampleNet { samplePage with regcat := "full" }).requests = [] :=
  ⟨by decide,
    (C3_other_selection_hides_field sampleNet { samplePage with regcat := "full" }
      (Or.inl (by decide))).2.2.1,
    (C3_other_selection_hides_field sampleNet { samplePage with regcat := "full" }
      (Or.inl (by decide))).2.2.2.1⟩

/-- C4: with category `modular` and a non-empty occupation, a run whose fetch
fails (network failure, status outside 200 to 299, unparsable body, `modules`
missing or not a sequence) ends with the field visible, the select enabled and
the placeholder as its only option; two runs from the same page whose fetches
fail, in whichever way, end in the same page. -/
theorem C4_failed_fetch_leaves_placeholder (net net' : Network) (p : State)
    (hcat : p.regcat = "modular") (hocc : p.occId ≠ "")
    (hfail : fetchFails (net (modulesUrl p.occId)) = true)
    (hfail' : fetchFails (net' (modulesUrl p.occId)) = true) :
    (updateModulesField net p).state.hidden = false ∧
    (updateModulesField net p).state.selectDisabled = false ∧
    (updateModulesField net p).state.options = [placeholder] ∧
    (updateModulesField net p).thrown = none ∧
    (updateModulesField net p).state = (updateModulesField net' p).state := by
  rw [updateModulesField_modular net p hcat hocc, updateModulesField_modular net' p hcat hocc,
    specFetched_of_fails _ hfail, specFetched_of_fails _ hfail']
  simp [updateResume, forEachModule, State.hidden, not_mem_classListRemove]

/-- C4, on a response with status 500 and on a dead network. -/
theorem C4_failed_fetch_leaves_placeholder_witness :
    fetchFails (failingNet (modulesUrl samplePage.occId)) = true ∧
    fetchFails (deadNet (modulesUrl samplePage.occId)) = true ∧
    (updateModulesField failingNet samplePage).state.options = [placeholder] ∧
    (updateModulesField failingNet samplePage).state =
      (updateModulesField deadNet samplePage).state :=
  ⟨rfl, rfl,
    (C4_failed_fetch_leaves_placeholder failingNet deadNet samplePage rfl (by decide) rfl rfl).2.2.1,
    (C4_failed_fetch_leaves_placeholder failingNet deadNet samplePage rfl (by decide) rfl
      rfl).2.2.2.2⟩

/-- C5: after the click handler of the open trigger the field is hidden, the
select is disabled and has no options, whatever the page was before; the handler
leaves the selectors and `allModules` alone and its effect on the field does not
depend on the selectors. -/
theorem C5_modal_open_resets_field (p : State) :
    (openBtnClick p).hidden = true ∧
    (openBtnClick p).selectDisabled = true ∧
    (openBtnClick p).options = [] ∧
    (openBtnClick p).regcat = p.regcat ∧
    (openBtnClick p).occId = p.occId ∧
    (openBtnClick p).allModules = p.allModules ∧
    (∀ regcat occId : String,
      openBtnClick { p with regcat := regcat, occId := occId } =
        { openBtnClick p with regcat := regcat, occId := occId }) := by
  refine ⟨?_, rfl, rfl, rfl, rfl, rfl, fun _ _ => rfl⟩
  simp [openBtnClick, State.hidden, mem_classListAdd]

/-- C6, at the failing input: when the response is `{modules:[null]}` with
status 200, `fetchModulesForOccupation` returns the list `[null]`, the read of
`mod.id` in the `forEach` callback throws a `TypeError`, and the run of
`updateModulesField` ends with that exception. -/
theorem C6_null_entry_throws :
    (fetchModulesForOccupation nullEntryNet (.str samplePage.occId)).result = .ok [.null] ∧
    (updateModulesField nullEntryNet samplePage).thrown = some .typeError ∧
    (updateModulesField nullEntryNet samplePage).state.options = [placeholder] :=
  ⟨rfl, rfl, rfl⟩

/-- C7 as stated fails: from a page whose `allModules` is a stale one-entry list,
a modular run whose fetch fails leaves `allModules` different from that list. -/
theorem C7_stale_list_counterexample :
    samplePage.regcat = "modular" ∧ samplePage.occId ≠ "" ∧
    fetchFails (deadNet (modulesUrl samplePage.occId)) = true ∧
    (updateModulesField deadNet samplePage).state.allModules ≠ samplePage.allModules :=
  ⟨rfl, by decide, rfl,
    fun h => List.noConfusion (h : ([] : List JSVal) = [JSVal.str "stale"])⟩

/-- C7, amended: a run that takes the modular branch and whose fetch fails
overwrites `allModules` with the empty list, whatever it held before. -/
theorem C7_failed_fetch_empties_allModules (net : Network) (p : State)
    (hcat : p.regcat = "modular") (hocc : p.occId ≠ "")
    (hfail : fetchFails (net (modulesUrl p.occId)) = true) :
    (updateModulesField net p).state.allModules = [] := by
  rw [updateModulesField_modular net p hcat hocc, specFetched_of_fails _ hfail]
  rfl

/-- C7, amended, on a response with status 500. -/
theorem C7_failed_fetch_empties_allModules_witness :
    samplePage.allModules = [.str "stale"] ∧
    fetchFails (failingNet (modulesUrl samplePage.occId)) = true ∧
    (updateModulesField failingNet samplePage).state.allModules = [] :=
  ⟨rfl, rfl, C7_failed_fetch_empties_allModules failingNet samplePage rfl (by decide) rfl⟩

/-! ## Interleaved runs: lemmas -/

theorem updateResume_frame (modules : List JSVal) (p : State) :
    (updateResume modules p).1.hidden = p.hidden ∧
    (updateResume modules p).1.selectDisabled = p.selectDisabled ∧
    (updateResume modules p).1.regcat = p.regcat ∧
    (updateResume modules p).1.occId = p.occId ∧
    ∃ added, (updateResume modules p).1.options = p.options ++ added := by
  obtain ⟨h1, h2, h3, h4, _, h6⟩ := forEachModule_frame modules { p with allModules := modules }
  exact ⟨by simp only [State.hidden, updateResume, h1], h2, h3, h4, h6⟩

theorem updateResume_toJS (ms : List Module) (p : State) :
    updateResume (ms.map Module.toJS) p =
      ({ p with allModules := ms.map Module.toJS, options := p.options ++ ms.map Module.option },
        none) := by
  simp [updateResume, forEachModule_toJS]

theorem step_change_modular (s : Sys) (hcat : s.page.regcat = "modular")
    (hocc : s.page.occId ≠ "") :
    step s .change =
      some ⟨{ s.page with
          wrapperClasses := classListRemove "hidden" s.page.wrapperClasses
          selectDisabled := false
          options := [placeholder] }, s.pending ++ [modulesUrl s.page.occId]⟩ := by
  simp [step, updateStart_modular s.page hcat hocc, fetchStart_str s.page.occId hocc]

theorem step_change_else (s : Sys) (h : s.page.regcat ≠ "modular" ∨ s.page.occId = "") :
    step s .change =
      some ⟨{ s.page with
          wrapperClasses := classListAdd "hidden" s.page.wrapperClasses
          selectDisabled := true
          options := [] }, s.pending⟩ := by
  simp [step, updateStart_else s.page h]

theorem step_settle (s s' : Sys) (i : Nat) (outcome : FetchOutcome)
    (h : step s (.settle i outcome) = some s') :
    s' = ⟨(updateResume (specFetched outcome) s.page).1, s.pending.eraseIdx i⟩ := by
  simp only [step, fetchResume_eq_spec] at h
  split at h
  · exact absurd h (by simp)
  · exact (Option.some.inj h).symm

theorem step_hidden_eq_disabled (s s' : Sys) (a : Action) (h : step s a = some s')
    (hinv : s.page.hidden = s.page.selectDisabled) :
    s'.page.hidden = s'.page.selectDisabled := by
  cases a with
  | select regcat occId =>
    simp only [step, Option.some.injEq] at h
    subst h
    exact hinv
  | change =>
    by_cases hm : s.page.regcat = "modular" ∧ s.page.occId ≠ ""
    · rw [step_change_modular s hm.1 hm.2, Option.some.injEq] at h
      subst h
      simp [State.hidden, not_mem_classListRemove]
    · have hm' : s.page.regcat ≠ "modular" ∨ s.page.occId = "" := by
        by_cases hc : s.page.regcat = "modular"
        · exact Or.inr (by_contra fun ho => hm ⟨hc, ho⟩)
        · exact Or.inl hc
      rw [step_change_else s hm', Option.some.injEq] at h
      subst h
      simp [State.hidden, mem_classListAdd]
  | settle i outcome =>
    have h' := step_settle s s' i outcome h
    subst h'
    obtain ⟨h1, h2, _⟩ := updateResume_frame (specFetched outcome) s.page
    simp only [h1, h2, hinv]
  | openClick =>
    simp only [step, Option.some.injEq] at h
    subst h
    simp [openBtnClick, State.hidden, mem_classListAdd]

theorem run_hidden_eq_disabled (acts : List Action) (s0 s : Sys)
    (hrun : runActions s0 acts = some s)
    (hinv : s0.page.hidden = s0.page.selectDisabled) :
    s.page.hidden = s.page.selectDisabled := by
  induction acts generalizing s0 with
  | nil =>
    simp only [runActions, Option.some.injEq] at hrun
    subst hrun
    exact hinv
  | cons a rest ih =>
    simp only [runActions] at hrun
    cases hstep : step s0 a with
    | none => simp [hstep] at hrun
    | some s1 =>
      simp only [hstep] at hrun
      exact ih s1 hrun (step_hidden_eq_disabled s0 s1 a hstep hinv)

theorem step_enters_visible (s s' : Sys) (a : Action) (h : step s a = some s')
    (hbefore : s.page.hidden = true) (hafter : s'.page.hidden = false) :
    a = .change ∧ s.page.regcat = "modular" ∧ s.page.occId ≠ "" := by
  cases a with
  | select regcat occId =>
    simp only [step, Option.some.injEq] at h
    subst h
    simp [State.hidden] at hbefore hafter
    exact absurd hbefore hafter
  | change =>
    by_cases hm : s.page.regcat = "modular" ∧ s.page.occId ≠ ""
    · exact ⟨rfl, hm.1, hm.2⟩
    · have hm' : s.page.regcat ≠ "modular" ∨ s.page.occId = "" := by
        by_cases hc : s.page.regcat = "modular"
        · exact Or.inr (by_contra fun ho => hm ⟨hc, ho⟩)
        · exact Or.inl hc
      rw [step_change_else s hm', Option.some.injEq] at h
      subst h
      simp [State.hidden, mem_classListAdd] at hafter
  | settle i outcome =>
    have h' := step_settle s s' i outcome h
    subst h'
    obtain ⟨h1, _⟩ := updateResume_frame (specFetched outcome) s.page
    rw [h1, hbefore] at hafter
    exact absurd hafter (by simp)
  | openClick =>
    simp only [step, Option.some.injEq] at h
    subst h
    simp [openBtnClick, State.hidden, mem_classListAdd] at hafter

theorem step_hidden_empty (s s' : Sys) (a : Action) (h : step s a = some s')
    (hvis : ∀ i outcome, a = .settle i outcome → s.page.hidden = false)
    (hinv : s.page.hidden = true → s.page.options = []) :
    s'.page.hidden = true → s'.page.options = [] := by
  cases a with
  | select regcat occId =>
    simp only [step, Option.some.injEq] at h
    subst h
    exact hinv
  | change =>
    by_cases hm : s.page.regcat = "modular" ∧ s.page.occId ≠ ""
    · rw [step_change_modular s hm.1 hm.2, Option.some.injEq] at h
      subst h
      simp [State.hidden, not_mem_classListRemove]
    · have hm' : s.page.regcat ≠ "modular" ∨ s.page.occId = "" := by
        by_cases hc : s.page.regcat = "modular"
        · exact Or.inr (by_contra fun ho => hm ⟨hc, ho⟩)
        · exact Or.inl hc
      rw [step_change_else s hm', Option.some.injEq] at h
      subst h
      intro _
      rfl
  | settle i outcome =>
    have h' := step_settle s s' i outcome h
    subst h'
    obtain ⟨h1, _⟩ := updateResume_frame (specFetched outcome) s.page
    intro hh
    rw [h1, hvis i outcome rfl] at hh
    exact absurd hh (by simp)
  | openClick =>
    simp only [step, Option.some.injEq] at h
    subst h
    intro _
    rfl

theorem run_hidden_empty (acts : List Action) (s0 s : Sys)
    (hrun : runActions s0 acts = some s)
    (hvis : settlesWhileVisible s0 acts = true)
    (hinv : s0.page.hidden = true → s0.page.options = []) :
    s.page.hidden = true → s.page.options = [] := by
  induction acts generalizing s0 with
  | nil =>
    simp only [runActions, Option.some.injEq] at hrun
    subst hrun
    exact hinv
  | cons a rest ih =>
    simp only [runActions] at hrun
    cases hstep : step s0 a with
    | none => simp [hstep] at hrun
    | some s1 =>
      simp only [hstep] at hrun
      simp only [settlesWhileVisible, hstep, Bool.and_eq_true] at hvis
      refine ih s1 hrun hvis.2 (step_hidden_empty s0 s1 a hstep ?_ hinv)
      intro i outcome ha
      subst ha
      simpa using hvis.1

/-! ## Interleaved runs: the claims -/

/-- C8 as stated fails: two overlapping modular runs, the first fetch returning
module `1` and settling first, the second returning module `2` and settling last;
the select ends with the placeholder and the options of both fetches, not with
the placeholder and the options of the last fetch alone. -/
theorem C8_last_fetch_only_counterexample :
    (runActions ⟨blankPage, []⟩
        [.change, .select "modular" "8", .change,
          .settle 0 (modulesResponse [sampleModule]),
          .settle 0 (modulesResponse [otherModule])]).map (fun s => s.page.options) =
      some [placeholder, sampleModule.option, otherModule.option] ∧
    (runActions ⟨blankPage, []⟩
        [.change, .select "modular" "8", .change,
          .settle 0 (modulesResponse [sampleModule]),
          .settle 0 (modulesResponse [otherModule])]).map (fun s => s.page.options) ≠
      some (placeholder :: [otherModule].map Module.option) := by
  decide

/-- C8, amended: with two overlapping runs that both take the modular branch,
once both fetches have settled the select holds the placeholder, then the
options of the fetch that settled first, then the options of the fetch that
settled last, and `allModules` is the list of the fetch that settled last, for
either order of settling. -/
theorem C8_overlapping_runs_append_both (p : State) (occ2 : String) (o1 o2 : FetchOutcome)
    (ms1 ms2 : List Module)
    (hcat : p.regcat = "modular") (hocc : p.occId ≠ "") (hocc2 : occ2 ≠ "")
    (h1 : fetchResume o1 = .ok (ms1.map Module.toJS))
    (h2 : fetchResume o2 = .ok (ms2.map Module.toJS)) :
    (∃ s, runActions ⟨p, []⟩
        [.change, .select "modular" occ2, .change, .settle 0 o1, .settle 0 o2] = some s ∧
      s.page.options = placeholder :: (ms1.map Module.option ++ ms2.map Module.option) ∧
      s.page.allModules = ms2.map Module.toJS ∧ s.pending = []) ∧
    (∃ s, runActions ⟨p, []⟩
        [.change, .select "modular" occ2, .change, .settle 1 o2, .settle 0 o1] = some s ∧
      s.page.options = placeholder :: (ms2.map Module.option ++ ms1.map Module.option) ∧
      s.page.allModules = ms1.map Module.toJS ∧ s.pending = []) := by
  constructor <;>
    simp [runActions, step, updateStart, truthy, hcat, hocc, hocc2, fetchStart, toStr, h1, h2,
      updateResume_toJS]

/-- C8, amended, on two fetches that return module `1` and module `2`. -/
theorem C8_overlapping_runs_append_both_witness :
    blankPage.regcat = "modular" ∧ blankPage.occId ≠ "" ∧
    (∃ s, runActions ⟨blankPage, []⟩
        [.change, .select "modular" "8", .change,
          .settle 1 (modulesResponse [otherModule]),
          .settle 0 (modulesResponse [sampleModule])] = some s ∧
      s.page.options =
        placeholder :: ([otherModule].map Module.option ++ [sampleModule].map Module.option) ∧
      s.page.allModules = [sampleModule].map Module.toJS ∧ s.pending = []) :=
  ⟨rfl, by decide,
    (C8_overlapping_runs_append_both blankPage "8" (modulesResponse [sampleModule])
      (modulesResponse [otherModule]) [sampleModule] [otherModule] rfl (by decide) (by decide)
      rfl rfl).2⟩

/-- C9: from a state where the field is hidden exactly when the select is
disabled, every state reached by any sequence of turns (selector changes, starts
of an update, settled fetches in any order, clicks on the open trigger) has the
field hidden exactly when the select is disabled; a turn that takes the field
from hidden to visible is the start of an update that read category `modular`
and a non-empty occupation; a click on the open trigger leads to hidden and
disabled. -/
theorem C9_hidden_iff_disabled (s0 s : Sys) (acts : List Action)
    (hinv : s0.page.hidden = s0.page.selectDisabled)
    (hrun : runActions s0 acts = some s) :
    s.page.hidden = s.page.selectDisabled ∧
    (∀ (a : Action) (s' : Sys), step s a = some s' →
      s.page.hidden = true → s'.page.hidden = false →
      a = .change ∧ s.page.regcat = "modular" ∧ s.page.occId ≠ "") ∧
    (∃ s', step s .openClick = some s' ∧
      s'.page.hidden = true ∧ s'.page.selectDisabled = true) := by
  refine ⟨run_hidden_eq_disabled acts s0 s hrun hinv,
    fun a s' h hb ha => step_enters_visible s s' a h hb ha, _, rfl, ?_, rfl⟩
  simp [openBtnClick, State.hidden, mem_classListAdd]

/-- C9, on a run where a click on the open trigger and a second update overlap a
pending fetch. -/
theorem C9_hidden_iff_disabled_witness :
    blankPage.hidden = blankPage.selectDisabled ∧
    ∃ s, runActions ⟨blankPage, []⟩
        [.change, .openClick, .select "modular" "8", .change,
          .settle 1 (modulesResponse [otherModule]), .settle 0 .networkFailure] = some s ∧
      s.page.hidden = s.page.selectDisabled :=
  ⟨rfl, _, rfl,
    (C9_hidden_iff_disabled ⟨blankPage, []⟩ _
      [.change, .openClick, .select "modular" "8", .change,
        .settle 1 (modulesResponse [otherModule]), .settle 0 .networkFailure] rfl rfl).1⟩

/-- C10 as stated fails: from a hidden, disabled, empty field, an update is
suspended at its fetch, the field is hidden again (by a click on the open
trigger, or by a later update that reads another category), and the pending
fetch then settles with one module; the field is hidden and disabled and the
select holds the option of that module. -/
theorem C10_hidden_not_empty_counterexample :
    blankPage.hidden = true ∧ blankPage.selectDisabled = true ∧ blankPage.options = [] ∧
    (runActions ⟨blankPage, []⟩
        [.change, .openClick, .settle 0 (modulesResponse [sampleModule])]).map
        (fun s => (s.page.hidden, s.page.selectDisabled, s.page.options)) =
      some (true, true, [sampleModule.option]) ∧
    (runActions ⟨blankPage, []⟩
        [.change, .select "full" "7", .change, .settle 0 (modulesResponse [sampleModule])]).map
        (fun s => (s.page.hidden, s.page.selectDisabled, s.page.options)) =
      some (true, true, [sampleModule.option]) ∧
    [sampleModule.option] ≠ [] := by
  decide

/-- C10, amended: from a hidden, disabled, empty field, in every state reached by
a sequence of turns in which fetches settle only while the field is visible, a
hidden field has no options; and when a pending fetch settles in such a state
while the field is hidden, the field stays hidden and disabled and the select,
empty until then, receives one option per returned module. -/
theorem C10_hidden_empty_unless_late_fetch (s0 s : Sys) (acts : List Action)
    (hstart : s0.page.hidden = true ∧ s0.page.selectDisabled = true ∧ s0.page.options = [])
    (hrun : runActions s0 acts = some s)
    (hvis : settlesWhileVisible s0 acts = true) :
    (s.page.hidden = true → s.page.options = []) ∧
    (∀ (i : Nat) (outcome : FetchOutcome) (ms : List Module) (s' : Sys),
      step s (.settle i outcome) = some s' →
      fetchResume outcome = .ok (ms.map Module.toJS) →
      s.page.hidden = true →
      s'.page.hidden = true ∧ s'.page.selectDisabled = true ∧
        s'.page.options = ms.map Module.option) := by
  have hempty := run_hidden_empty acts s0 s hrun hvis (fun _ => hstart.2.2)
  have hdis := run_hidden_eq_disabled acts s0 s hrun (hstart.1.trans hstart.2.1.symm)
  refine ⟨hempty, ?_⟩
  intro i outcome ms s' hstep hres hhid
  have hs' := step_settle s s' i outcome hstep
  have hspec : specFetched outcome = ms.map Module.toJS := by
    rw [fetchResume_eq_spec] at hres
    exact Except.ok.inj hres
  subst hs'
  rw [hspec, updateResume_toJS]
  refine ⟨hhid, ?_, ?_⟩
  · exact hdis ▸ hhid
  · simp [hempty hhid]

/-- C10, amended, on a run where a fetch settles while the field is visible and
the open trigger is clicked afterwards: the field is hidden and the select is
empty. -/
theorem C10_hidden_empty_unless_late_fetch_witness :
    (blankPage.hidden = true ∧ blankPage.selectDisabled = true ∧ blankPage.options = []) ∧
    settlesWhileVisible ⟨blankPage, []⟩
      [.change, .settle 0 (modulesResponse [sampleModule]), .openClick] = true ∧
    ∃ s, runActions ⟨blankPage, []⟩
        [.change, .settle 0 (modulesResponse [sampleModule]), .openClick] = some s ∧
      s.page.hidden = true ∧ s.page.options = [] :=
  ⟨⟨rfl, rfl, rfl⟩, rfl, _, rfl, rfl,
    (C10_hidden_empty_unless_late_fetch ⟨blankPage, []⟩ _
      [.change, .settle 0 (modulesResponse [sampleModule]), .openClick]
      ⟨rfl, rfl, rfl⟩ rfl rfl).1 rfl⟩

end Emis
